import Mathlib

/-!
Verification of the leaky-bucket rate limiter and paginated fetch stream of
the `workshop-rustlab-2022` repository.

The Rust sources are shallowly embedded:
* machine integers (`u16`, `u8`, `u64`) become `Nat` with explicit saturation
  at their maximum values where the source saturates;
* `tokio::time::Instant` values become absolute times in nanoseconds (`Nat`);
  subtraction of instants is truncated subtraction, matching the saturating
  `Instant` subtraction used by the source;
* `Duration` values become nanosecond counts; a `Duration` subtraction that
  would underflow (a panic in Rust) is modelled by `Option.none`;
* interior mutability (`Cell`) becomes explicit state passing: each operation
  takes the current time and returns its result together with the new bucket.
-/

/-- Maximum value of a `u16`. -/
def U16_MAX : Nat := 65535

/-- Maximum value of a `u8`. -/
def U8_MAX : Nat := 255

/-- Nanoseconds per second, the unit conversion used by `std::time::Duration`. -/
def NANOS_PER_SEC : Nat := 1000000000

/-- HTTP header carrying the bucket points (`lib.rs`). -/
def BUCKET_POINTS_HEADER : String := "x-bucket-points"

/-- HTTP header carrying the bucket capacity (`lib.rs`). -/
def BUCKET_CAPACITY_HEADER : String := "x-bucket-capacity"

/-- HTTP header carrying the bucket leak-per-second (`lib.rs`). -/
def BUCKET_LEAK_PER_SECOND_HEADER : String := "x-bucket-leak-per-second"

/-- The state of `LeakyBucket` (`leaky_bucket.rs`): `capacity : u16`,
`leak_per_second : u8`, `last_points : Cell<u16>` and the `LastTime` cell,
flattened into the instant (absolute nanoseconds) and the sub-second
remainder in nanoseconds. -/
structure LeakyBucket where
  capacity : Nat
  leak_per_second : Nat
  last_points : Nat
  last_instant : Nat
  remainder_nanos : Nat
deriving DecidableEq, Repr

/-- `LeakyBucket::with_points`: builds a bucket holding `points`, observed at
time `now` with a zero sub-second remainder.  The source asserts
`points <= capacity` and panics otherwise; the panic is modelled by `none`. -/
def LeakyBucket.with_points (points capacity leak_per_second now : Nat) :
    Option LeakyBucket :=
  if points ≤ capacity then
    some { capacity := capacity
           leak_per_second := leak_per_second
           last_points := points
           last_instant := now
           remainder_nanos := 0 }
  else none

/-- `LeakyBucket::empty`: `with_points` applied to `0` points. -/
def LeakyBucket.emptyBucket (max_capacity leak_per_second now : Nat) :
    Option LeakyBucket :=
  LeakyBucket.with_points 0 max_capacity leak_per_second now

/-- `LeakyBucket::points` evaluated at absolute time `now` (nanoseconds):
`delta = now - instant + remainder`, whole elapsed seconds are clamped into
`u16` (`unwrap_or(u16::MAX)`), the leak is `delta_secs.saturating_mul(lps)`,
and the stored points are decreased by the leak, saturating at zero.  Returns
the observed points together with the updated bucket, whose remainder is
`delta.subsec_nanos()`. -/
def LeakyBucket.points (b : LeakyBucket) (now : Nat) : Nat × LeakyBucket :=
  let delta := now - b.last_instant + b.remainder_nanos
  let delta_secs := min (delta / NANOS_PER_SEC) U16_MAX
  let leak := min (delta_secs * b.leak_per_second) U16_MAX
  let pts := b.last_points - leak
  (pts, { b with last_points := pts
                 last_instant := now
                 remainder_nanos := delta % NANOS_PER_SEC })

/-- `LeakyBucket::add`: recompute the current points, then add `points` with
`u16` saturation; commit and return the sum when it does not exceed the
capacity, otherwise return `Err(MaxCapacityError(cur_points))` leaving the
committed count at the freshly observed value.  `Sum.inl` is `Ok`,
`Sum.inr` is the error payload. -/
def LeakyBucket.add (b : LeakyBucket) (points now : Nat) :
    (Nat ⊕ Nat) × LeakyBucket :=
  let r := b.points now
  let cur_points := r.1
  let b1 := r.2
  let pts := min (cur_points + points) U16_MAX
  if pts ≤ b.capacity then (Sum.inl pts, { b1 with last_points := pts })
  else (Sum.inr cur_points, b1)

/-- `LeakyBucket::saturating_add`: recompute the current points, add with
`u16` saturation and clamp to the capacity; always commits. -/
def LeakyBucket.saturating_add (b : LeakyBucket) (points now : Nat) :
    Nat × LeakyBucket :=
  let r := b.points now
  let pts := min (min (r.1 + points) U16_MAX) b.capacity
  (pts, { r.2 with last_points := pts })

/-- `LeakyBucket::available`: `capacity - points()`.  The `u16` subtraction
of the source and the truncated `Nat` subtraction agree on every state
satisfying the bucket invariant `points ≤ capacity`. -/
def LeakyBucket.available (b : LeakyBucket) (now : Nat) : Nat × LeakyBucket :=
  let r := b.points now
  (b.capacity - r.1, r.2)

/-- `LeakyBucket::wait_time_to_use`: the returned wait is in nanoseconds.
`checked_sub` yields the `Duration::ZERO` branch exactly when
`points < available`.  Otherwise the needed seconds are
`to_restore / lps + (to_restore % lps != 0)`; the division panics when
`lps = 0` and the final `Duration` subtraction panics when the carried
remainder exceeds the computed duration — both panics are modelled by
`none`. -/
def LeakyBucket.wait_time_to_use (b : LeakyBucket) (points now : Nat) :
    Option Nat × LeakyBucket :=
  let r := b.points now
  let cur_points := r.1
  let b1 := r.2
  let available := b.capacity - cur_points
  if points < available then (some 0, b1)
  else
    let to_restore := points - available
    if b.leak_per_second = 0 then (none, b1)
    else
      let seconds_needed := to_restore / b.leak_per_second +
        (if to_restore % b.leak_per_second ≠ 0 then 1 else 0)
      let nanos := seconds_needed * NANOS_PER_SEC
      if b1.remainder_nanos ≤ nanos then (some (nanos - b1.remainder_nanos), b1)
      else (none, b1)

/-- An externally triggered bucket operation: `points`, `add` or
`saturating_add`, each performed at some absolute time. -/
inductive BucketOp where
  | observe : BucketOp
  | charge (cost : Nat) : BucketOp
  | forceAdd (amount : Nat) : BucketOp
deriving DecidableEq, Repr

/-- Applies one bucket operation at time `t`, keeping only the state. -/
def applyOp (b : LeakyBucket) (op : BucketOp) (t : Nat) : LeakyBucket :=
  match op with
  | .observe => (b.points t).2
  | .charge c => (b.add c t).2
  | .forceAdd a => (b.saturating_add a t).2

/-- Runs a sequence of bucket operations, each paired with its time. -/
def runOps (b : LeakyBucket) (ops : List (BucketOp × Nat)) : LeakyBucket :=
  ops.foldl (fun b p => applyOp b p.1 p.2) b

/-- Runs a sequence of bare `points` observations at the given times. -/
def runPoints (b : LeakyBucket) (ts : List Nat) : LeakyBucket :=
  ts.foldl (fun b t => (b.points t).2) b

theorem points_fst_le_last_points (b : LeakyBucket) (now : Nat) :
    (b.points now).1 ≤ b.last_points :=
  Nat.sub_le _ _

theorem points_capacity (b : LeakyBucket) (now : Nat) :
    (b.points now).2.capacity = b.capacity := rfl

theorem points_leak (b : LeakyBucket) (now : Nat) :
    (b.points now).2.leak_per_second = b.leak_per_second := rfl

theorem points_snd_last_points (b : LeakyBucket) (now : Nat) :
    (b.points now).2.last_points = (b.points now).1 := rfl

theorem points_remainder_lt (b : LeakyBucket) (now : Nat) :
    (b.points now).2.remainder_nanos < NANOS_PER_SEC :=
  Nat.mod_lt _ (by simp [NANOS_PER_SEC])

theorem points_instant (b : LeakyBucket) (now : Nat) :
    (b.points now).2.last_instant = now := rfl

theorem applyOp_capacity (b : LeakyBucket) (op : BucketOp) (t : Nat) :
    (applyOp b op t).capacity = b.capacity := by
  cases op with
  | observe => rfl
  | charge c =>
      show (LeakyBucket.add b c t).2.capacity = b.capacity
      unfold LeakyBucket.add
      dsimp only
      split <;> rfl
  | forceAdd a => rfl

theorem applyOp_inv (b : LeakyBucket) (op : BucketOp) (t : Nat)
    (h : b.last_points ≤ b.capacity) :
    (applyOp b op t).last_points ≤ (applyOp b op t).capacity := by
  rw [applyOp_capacity]
  cases op with
  | observe =>
      exact le_trans (Nat.sub_le _ _) h
  | charge c =>
      show (LeakyBucket.add b c t).2.last_points ≤ b.capacity
      unfold LeakyBucket.add
      dsimp only
      split
      · next hle => exact hle
      · exact le_trans (points_fst_le_last_points b t) h
  | forceAdd a =>
      show (LeakyBucket.saturating_add b a t).2.last_points ≤ b.capacity
      unfold LeakyBucket.saturating_add
      exact Nat.min_le_right _ _

theorem runOps_capacity (b : LeakyBucket) (ops : List (BucketOp × Nat)) :
    (runOps b ops).capacity = b.capacity := by
  induction ops generalizing b with
  | nil => rfl
  | cons p rest ih =>
      show (runOps (applyOp b p.1 p.2) rest).capacity = b.capacity
      rw [ih, applyOp_capacity]

theorem runOps_inv (b : LeakyBucket) (ops : List (BucketOp × Nat))
    (h : b.last_points ≤ b.capacity) :
    (runOps b ops).last_points ≤ (runOps b ops).capacity := by
  induction ops generalizing b with
  | nil => exact h
  | cons p rest ih =>
      show (runOps (applyOp b p.1 p.2) rest).last_points ≤ _
      rw [runOps_capacity, ← applyOp_capacity b p.1 p.2]
      have := applyOp_inv b p.1 p.2 h
      have h2 := ih (applyOp b p.1 p.2) this
      rwa [runOps_capacity] at h2

/-- C1: a bucket constructed with initial points not exceeding the capacity
keeps its observable point count between `0` and the capacity after any
finite sequence of `points` / `add` / `saturating_add` operations performed
at arbitrary times; decay saturates at zero (the counts are `Nat`) and no
operation commits a value above the capacity. -/
theorem leaky_bucket_invariant (p c l t0 : Nat) (b : LeakyBucket)
    (hb : LeakyBucket.with_points p c l t0 = some b)
    (ops : List (BucketOp × Nat)) (tEnd : Nat) :
    ((runOps b ops).points tEnd).1 ≤ c := by
  unfold LeakyBucket.with_points at hb
  split at hb
  · next hpc =>
      cases hb
      have hinv := runOps_inv
        { capacity := c, leak_per_second := l, last_points := p,
          last_instant := t0, remainder_nanos := 0 } ops hpc
      have hcap := runOps_capacity
        { capacity := c, leak_per_second := l, last_points := p,
          last_instant := t0, remainder_nanos := 0 } ops
      exact le_trans (points_fst_le_last_points _ _) (le_trans hinv (le_of_eq hcap))
  · cases hb

theorem leaky_bucket_invariant_witness :
    LeakyBucket.with_points 5 10 2 0 = some
      { capacity := 10, leak_per_second := 2, last_points := 5,
        last_instant := 0, remainder_nanos := 0 } ∧
    ((runOps
        { capacity := 10, leak_per_second := 2, last_points := 5,
          last_instant := 0, remainder_nanos := 0 }
        [(BucketOp.charge 3, 500000000), (BucketOp.observe, 1500000000),
         (BucketOp.forceAdd 9, 2000000000)]).points 2500000000).1 ≤ 10 :=
  ⟨by decide,
   leaky_bucket_invariant 5 10 2 0
     { capacity := 10, leak_per_second := 2, last_points := 5,
       last_instant := 0, remainder_nanos := 0 }
     (by decide)
     [(BucketOp.charge 3, 500000000), (BucketOp.observe, 1500000000),
      (BucketOp.forceAdd 9, 2000000000)] 2500000000⟩

theorem points_at_fresh_instant (b : LeakyBucket) (now : Nat)
    (hi : b.last_instant = now) (hr : b.remainder_nanos < NANOS_PER_SEC) :
    (b.points now).1 = b.last_points := by
  unfold LeakyBucket.points
  dsimp only
  rw [hi, Nat.sub_self, Nat.zero_add, Nat.div_eq_of_lt hr]
  simp

/-- C2 counterexample: with `capacity = u16::MAX = 65535`, a full bucket
grants a charge of `1` even though `current + cost = 65536` exceeds the
capacity, because the sum saturates at `u16::MAX` before the capacity
comparison.  The claim as stated predicts a rejection here. -/
theorem charge_overflow_saturation_grants :
    ({ capacity := 65535, leak_per_second := 0, last_points := 65535,
       last_instant := 0, remainder_nanos := 0 : LeakyBucket }.capacity <
       ({ capacity := 65535, leak_per_second := 0, last_points := 65535,
          last_instant := 0, remainder_nanos := 0 : LeakyBucket }.points 0).1 + 1) ∧
    ({ capacity := 65535, leak_per_second := 0, last_points := 65535,
       last_instant := 0, remainder_nanos := 0 : LeakyBucket }.add 1 0).1 =
      Sum.inl 65535 := by
  decide

/-- C2 (amended): `add` first recomputes the decayed current points; then,
writing `sum` for the `u16`-saturated value `min (current + cost) 65535`, it
rejects exactly when `sum` exceeds the capacity — returning the pre-charge
current point count and leaving the observable count unchanged (a `points`
call with no elapsed time still returns the pre-charge value) — and
otherwise commits `sum` and returns it. -/
theorem charge_commit_or_reject (b : LeakyBucket) (cost now : Nat) :
    (b.add cost now).1 =
      (if min ((b.points now).1 + cost) U16_MAX ≤ b.capacity
       then Sum.inl (min ((b.points now).1 + cost) U16_MAX)
       else Sum.inr ((b.points now).1)) ∧
    (((b.add cost now).2).points now).1 =
      (if min ((b.points now).1 + cost) U16_MAX ≤ b.capacity
       then min ((b.points now).1 + cost) U16_MAX
       else (b.points now).1) := by
  unfold LeakyBucket.add
  dsimp only
  split
  · refine ⟨rfl, ?_⟩
    exact points_at_fresh_instant _ now rfl (points_remainder_lt b now)
  · refine ⟨rfl, ?_⟩
    rw [points_at_fresh_instant _ now rfl (points_remainder_lt b now)]
    exact points_snd_last_points b now

theorem decay_arith (C R s t M : Nat) (hC : C ≤ M) (hst : s ≤ t) :
    C - R * s - min (min (t - s) M * R) M = C - R * t := by
  rcases Nat.eq_zero_or_pos R with hR0 | hR1
  · subst hR0; simp
  · have hts : t = s + (t - s) := by omega
    by_cases hdM : t - s ≤ M
    · rw [min_eq_left hdM]
      by_cases hdR : (t - s) * R ≤ M
      · rw [min_eq_left hdR, Nat.sub_sub]
        congr 1
        calc R * s + (t - s) * R = R * (s + (t - s)) := by ring
          _ = R * t := by rw [← hts]
      · push_neg at hdR
        rw [min_eq_right (le_of_lt hdR)]
        have h2 : C - R * t = 0 := by
          apply Nat.sub_eq_zero_of_le
          calc C ≤ M := hC
            _ ≤ (t - s) * R := le_of_lt hdR
            _ ≤ R * t := by
                rw [Nat.mul_comm]
                exact Nat.mul_le_mul_left R (by omega)
        rw [h2]
        exact Nat.sub_eq_zero_of_le (le_trans (Nat.sub_le _ _) hC)
    · push_neg at hdM
      rw [min_eq_right (le_of_lt hdM)]
      have hMR : M ≤ M * R := Nat.le_mul_of_pos_right M hR1
      rw [min_eq_right hMR]
      have h2 : C - R * t = 0 := by
        apply Nat.sub_eq_zero_of_le
        calc C ≤ M := hC
          _ ≤ t - s := le_of_lt hdM
          _ ≤ t := Nat.sub_le _ _
          _ ≤ R * t := Nat.le_mul_of_pos_left t hR1
      rw [h2]
      exact Nat.sub_eq_zero_of_le (le_trans (Nat.sub_le _ _) hC)

theorem points_decay_step (C R : Nat) (b : LeakyBucket) (t : Nat)
    (hC : C ≤ U16_MAX) (hR : b.leak_per_second = R)
    (hp : b.last_points = C - R * (b.last_instant / NANOS_PER_SEC))
    (hr : b.remainder_nanos = b.last_instant % NANOS_PER_SEC)
    (ht : b.last_instant ≤ t) :
    (b.points t).2 =
      { capacity := b.capacity, leak_per_second := R,
        last_points := C - R * (t / NANOS_PER_SEC), last_instant := t,
        remainder_nanos := t % NANOS_PER_SEC } := by
  have hdm := Nat.div_add_mod b.last_instant NANOS_PER_SEC
  have hsle : NANOS_PER_SEC * (b.last_instant / NANOS_PER_SEC) ≤ t := by omega
  have hdelta : t - b.last_instant + b.remainder_nanos =
      t - NANOS_PER_SEC * (b.last_instant / NANOS_PER_SEC) := by omega
  unfold LeakyBucket.points
  dsimp only
  rw [hdelta, Nat.sub_mul_div _ _ _ hsle, Nat.sub_mul_mod hsle, hp, hR,
    decay_arith C R (b.last_instant / NANOS_PER_SEC) (t / NANOS_PER_SEC)
      U16_MAX hC (Nat.div_le_div_right ht)]

theorem runPoints_decay (C R : Nat) (ts : List Nat) (b : LeakyBucket)
    (hC : C ≤ U16_MAX) (hR : b.leak_per_second = R)
    (hp : b.last_points = C - R * (b.last_instant / NANOS_PER_SEC))
    (hr : b.remainder_nanos = b.last_instant % NANOS_PER_SEC)
    (hchain : List.Chain' (· ≤ ·) (b.last_instant :: ts)) :
    (runPoints b ts).leak_per_second = R ∧
    (runPoints b ts).last_points =
      C - R * ((runPoints b ts).last_instant / NANOS_PER_SEC) ∧
    (runPoints b ts).remainder_nanos =
      (runPoints b ts).last_instant % NANOS_PER_SEC ∧
    (runPoints b ts).last_instant = (b.last_instant :: ts).getLast (by simp) := by
  induction ts generalizing b with
  | nil => exact ⟨hR, hp, hr, rfl⟩
  | cons t rest ih =>
      have hle : b.last_instant ≤ t := (List.chain'_cons.mp hchain).1
      have hstep := points_decay_step C R b t hC hR hp hr hle
      have hchain2 : List.Chain' (· ≤ ·) (t :: rest) :=
        (List.chain'_cons.mp hchain).2
      have hih := ih (b.points t).2 (by rw [hstep]) (by rw [hstep])
        (by rw [hstep]) (by rw [hstep]; exact hchain2)
      exact ⟨hih.1, hih.2.1, hih.2.2.1, hih.2.2.2⟩

/-- C6: `points` decays the stored count by whole elapsed seconds times the
leak rate, saturating at zero, and carries the sub-second remainder across
observations.  Consequently a bucket seeded at capacity `C` with leak rate
`R` at time `0`, observed at any nondecreasing sequence of times `ts` and
finally at time `t`, reads exactly `C - R * (t / 10^9)` points — the
rate-exact value after `t / 10^9` whole cumulative seconds, never negative —
regardless of how the elapsed time is split across the calls. -/
theorem points_decay_rate_exact (C R : Nat) (ts : List Nat) (t : Nat)
    (b : LeakyBucket) (hC : C ≤ U16_MAX)
    (hb : LeakyBucket.with_points C C R 0 = some b)
    (hchain : List.Chain' (· ≤ ·) (0 :: (ts ++ [t]))) :
    ((runPoints b ts).points t).1 = C - R * (t / NANOS_PER_SEC) := by
  unfold LeakyBucket.with_points at hb
  rw [if_pos (le_refl C)] at hb
  injection hb with hb
  subst hb
  have hrd := runPoints_decay C R (ts ++ [t])
    { capacity := C, leak_per_second := R, last_points := C,
      last_instant := 0, remainder_nanos := 0 }
    hC rfl (by simp) (by simp) hchain
  have happ : runPoints
      { capacity := C, leak_per_second := R, last_points := C,
        last_instant := 0, remainder_nanos := 0 } (ts ++ [t]) =
      ((runPoints
        { capacity := C, leak_per_second := R, last_points := C,
          last_instant := 0, remainder_nanos := 0 } ts).points t).2 := by
    unfold runPoints
    rw [List.foldl_append]
    rfl
  have hlast : (runPoints
      { capacity := C, leak_per_second := R, last_points := C,
        last_instant := 0, remainder_nanos := 0 } (ts ++ [t])).last_instant = t := by
    rw [hrd.2.2.2]
    show ((0 :: ts) ++ [t]).getLast (by simp) = t
    simp [List.getLast_append]
  have h1 := hrd.2.1
  rw [hlast, happ] at h1
  rw [← points_snd_last_points]
  exact h1

theorem points_decay_rate_exact_witness :
    5 ≤ U16_MAX ∧
    LeakyBucket.with_points 5 5 1 0 = some
      { capacity := 5, leak_per_second := 1, last_points := 5,
        last_instant := 0, remainder_nanos := 0 } ∧
    List.Chain' (· ≤ ·)
      (0 :: ([1500000000, 2000000000, 4000000000] ++ [6000000000])) ∧
    ((runPoints
        { capacity := 5, leak_per_second := 1, last_points := 5,
          last_instant := 0, remainder_nanos := 0 }
        [1500000000, 2000000000, 4000000000]).points 6000000000).1 =
      5 - 1 * (6000000000 / NANOS_PER_SEC) :=
  ⟨by decide, by decide, by simp [List.chain'_cons],
   points_decay_rate_exact 5 1 [1500000000, 2000000000, 4000000000] 6000000000
     _ (by decide) (by decide) (by simp [List.chain'_cons])⟩

theorem points_fst_eq (b : LeakyBucket) (now : Nat) :
    (b.points now).1 = b.last_points -
      min (min ((now - b.last_instant + b.remainder_nanos) / NANOS_PER_SEC)
        U16_MAX * b.leak_per_second) U16_MAX := rfl

theorem ceil_pos (t l : Nat) (ht : 0 < t) (hl : 0 < l) :
    0 < t / l + (if t % l ≠ 0 then 1 else 0) := by
  by_cases hlt : t < l
  · have h1 : t % l = t := Nat.mod_eq_of_lt hlt
    rw [if_pos (by omega)]
    exact Nat.succ_pos _
  · push_neg at hlt
    have := (Nat.one_le_div_iff hl).mpr hlt
    omega

theorem ceil_mul_ge (t l : Nat) (hl : 0 < l) :
    t ≤ (t / l + (if t % l ≠ 0 then 1 else 0)) * l := by
  have hdm := Nat.div_add_mod t l
  have hml := Nat.mod_lt t hl
  by_cases h : t % l = 0
  · rw [if_neg (by simp [h]), Nat.add_zero, Nat.mul_comm]
    omega
  · rw [if_pos h, Nat.add_mul, Nat.one_mul, Nat.mul_comm (t / l) l]
    omega

theorem ceil_div_eq (t l : Nat) (hl : 0 < l) :
    t / l + (if t % l ≠ 0 then 1 else 0) = (t + l - 1) / l := by
  have hdm := Nat.div_add_mod t l
  have hml := Nat.mod_lt t hl
  by_cases h : t % l = 0
  · rw [if_neg (by simp [h]), Nat.add_zero]
    have ht2 : t + l - 1 = (l - 1) + l * (t / l) := by omega
    rw [ht2, Nat.add_mul_div_left _ _ hl]
    rw [Nat.div_eq_of_lt (show l - 1 < l by omega)]
    omega
  · rw [if_pos h]
    have hr1 : 1 ≤ t % l := Nat.one_le_iff_ne_zero.mpr h
    have ht2 : t + l - 1 = (t % l - 1) + l * (t / l + 1) := by
      rw [Nat.mul_succ]; omega
    rw [ht2, Nat.add_mul_div_left _ _ hl]
    rw [Nat.div_eq_of_lt (show t % l - 1 < l by omega)]
    omega

theorem wait_time_value (b : LeakyBucket) (cost now : Nat)
    (hlt : b.capacity - (b.points now).1 < cost) (hl : 0 < b.leak_per_second) :
    (b.wait_time_to_use cost now).1 =
      some (((cost - (b.capacity - (b.points now).1)) / b.leak_per_second +
          (if (cost - (b.capacity - (b.points now).1)) % b.leak_per_second ≠ 0
           then 1 else 0)) * NANOS_PER_SEC -
        (b.points now).2.remainder_nanos) := by
  have hrlt := points_remainder_lt b now
  have hpos : 0 < (cost - (b.capacity - (b.points now).1)) / b.leak_per_second +
      (if (cost - (b.capacity - (b.points now).1)) % b.leak_per_second ≠ 0
       then 1 else 0) :=
    ceil_pos _ _ (by omega) hl
  have hble : (b.points now).2.remainder_nanos ≤
      ((cost - (b.capacity - (b.points now).1)) / b.leak_per_second +
        (if (cost - (b.capacity - (b.points now).1)) % b.leak_per_second ≠ 0
         then 1 else 0)) * NANOS_PER_SEC :=
    le_trans (le_of_lt hrlt) (Nat.le_mul_of_pos_left _ hpos)
  unfold LeakyBucket.wait_time_to_use
  dsimp only
  rw [if_neg (by omega), if_neg (by omega), if_pos hble]


theorem charge_after_wait (b1 : LeakyBucket) (cost : Nat)
    (hcur : b1.last_points ≤ b1.capacity) (hcap : b1.capacity ≤ U16_MAX)
    (hr : b1.remainder_nanos < NANOS_PER_SEC)
    (hlt : b1.capacity - b1.last_points < cost) (hl : 0 < b1.leak_per_second)
    (hcost : cost ≤ b1.capacity) :
    ((b1.add cost (b1.last_instant +
        (((cost - (b1.capacity - b1.last_points)) / b1.leak_per_second +
            (if (cost - (b1.capacity - b1.last_points)) % b1.leak_per_second ≠ 0
             then 1 else 0)) * NANOS_PER_SEC
          - b1.remainder_nanos))).1).isLeft = true := by
  set tr := cost - (b1.capacity - b1.last_points) with htr
  set secs := tr / b1.leak_per_second +
    (if tr % b1.leak_per_second ≠ 0 then 1 else 0) with hsecs
  have hsp : 0 < secs := ceil_pos tr _ (by omega) hl
  have hrle : b1.remainder_nanos ≤ secs * NANOS_PER_SEC :=
    le_trans (le_of_lt hr) (Nat.le_mul_of_pos_left _ hsp)
  have htrle : tr ≤ secs * b1.leak_per_second := ceil_mul_ge tr _ hl
  have hB : 0 < NANOS_PER_SEC := by norm_num [NANOS_PER_SEC]
  have hpts : (b1.points (b1.last_instant +
        (secs * NANOS_PER_SEC - b1.remainder_nanos))).1 =
      b1.last_points - min (min secs U16_MAX * b1.leak_per_second) U16_MAX := by
    rw [points_fst_eq]
    have hdelta : b1.last_instant + (secs * NANOS_PER_SEC - b1.remainder_nanos)
        - b1.last_instant + b1.remainder_nanos = secs * NANOS_PER_SEC := by
      omega
    rw [hdelta, Nat.mul_div_cancel _ hB]
  have hkey : b1.last_points -
      min (min secs U16_MAX * b1.leak_per_second) U16_MAX + cost ≤
      b1.capacity := by
    by_cases h1 : secs ≤ U16_MAX
    · rw [min_eq_left h1]
      by_cases h2 : secs * b1.leak_per_second ≤ U16_MAX
      · rw [min_eq_left h2]
        omega
      · have hm2 : U16_MAX ≤ secs * b1.leak_per_second := by omega
        rw [min_eq_right hm2]
        omega
    · have hm1 : U16_MAX ≤ secs := by omega
      rw [min_eq_right hm1, min_eq_right (Nat.le_mul_of_pos_right _ hl)]
      omega
  unfold LeakyBucket.add
  dsimp only
  rw [hpts, if_pos (le_trans (Nat.min_le_left _ _) hkey)]
  rfl

theorem wait_time_snd (b : LeakyBucket) (cost now : Nat) :
    (b.wait_time_to_use cost now).2 = (b.points now).2 := by
  unfold LeakyBucket.wait_time_to_use
  dsimp only
  split
  · rfl
  · split
    · rfl
    · split <;> split <;> rfl

/-- C4 counterexample: two closed refutations of the claim as stated.
First, on a bucket of capacity `10` holding `5` points observed half a
second after seeding, `cost = 5` equals `available()` yet
`wait_time_to_use` does not return a zero duration: the `Duration`
subtraction underflows (a panic, modelled `none`) because the carried
half-second remainder exceeds the zero-second estimate.  Second, for
`cost = 20` above the capacity `10`, the returned wait of `10` seconds
elapses and the subsequent charge is still rejected, refuting the claim
that the charge then succeeds. -/
theorem wait_time_claim_counterexample :
    ((5 : Nat) ≤
        { capacity := 10, leak_per_second := 1, last_points := 5,
          last_instant := 0, remainder_nanos := 0 : LeakyBucket }.capacity -
        ({ capacity := 10, leak_per_second := 1, last_points := 5,
           last_instant := 0, remainder_nanos := 0 : LeakyBucket }.points
          500000000).1 ∧
      ({ capacity := 10, leak_per_second := 1, last_points := 5,
         last_instant := 0, remainder_nanos := 0 : LeakyBucket }.wait_time_to_use
        5 500000000).1 = none) ∧
    (({ capacity := 10, leak_per_second := 1, last_points := 0,
        last_instant := 0, remainder_nanos := 0 : LeakyBucket }.wait_time_to_use
        20 0).1 = some 10000000000 ∧
      (({ capacity := 10, leak_per_second := 1, last_points := 0,
          last_instant := 0, remainder_nanos := 0 : LeakyBucket }.wait_time_to_use
          20 0).2.add 20 (0 + 10000000000)).1 = Sum.inr 0) := by
  decide

/-- C4 (amended): on a bucket satisfying the invariant with a `u16`-bounded
capacity, `wait_time_to_use` returns a zero duration whenever
`cost < available()`, and also when `cost = available()` with a positive
leak rate and no carried sub-second remainder (with a nonzero carried
remainder that case instead underflows the `Duration` subtraction, and
with a zero leak rate the division panics — see the counterexample);
otherwise, for a positive leak rate, it returns the ceiling of
`(cost - available) / leak_rate` seconds minus the carried sub-second
remainder (that subtraction never underflows here), and if additionally
`cost ≤ capacity`, a charge of `cost` issued after exactly that duration
succeeds, assuming no intervening charges. -/
theorem wait_time_to_afford (b : LeakyBucket) (cost now : Nat)
    (hinv : b.last_points ≤ b.capacity) (hcap : b.capacity ≤ U16_MAX) :
    (cost < b.capacity - (b.points now).1 →
      (b.wait_time_to_use cost now).1 = some 0) ∧
    (cost = b.capacity - (b.points now).1 → 0 < b.leak_per_second →
      (b.points now).2.remainder_nanos = 0 →
      (b.wait_time_to_use cost now).1 = some 0) ∧
    (b.capacity - (b.points now).1 < cost → 0 < b.leak_per_second →
      cost ≤ b.capacity →
      (b.wait_time_to_use cost now).1 =
        some ((cost - (b.capacity - (b.points now).1) + b.leak_per_second - 1) /
            b.leak_per_second * NANOS_PER_SEC -
          (b.points now).2.remainder_nanos) ∧
      (((b.wait_time_to_use cost now).2.add cost
          (now + ((cost - (b.capacity - (b.points now).1) + b.leak_per_second - 1) /
              b.leak_per_second * NANOS_PER_SEC -
            (b.points now).2.remainder_nanos))).1).isLeft = true) := by
  refine ⟨?_, ?_, ?_⟩
  · intro h
    unfold LeakyBucket.wait_time_to_use
    dsimp only
    rw [if_pos h]
  · intro heq hl hrem
    unfold LeakyBucket.wait_time_to_use
    dsimp only
    rw [if_neg (by omega), if_neg (by omega)]
    have h0 : cost - (b.capacity - (b.points now).1) = 0 := by omega
    rw [h0]
    simp [hrem]
  · intro hlt hl hcost
    constructor
    · rw [wait_time_value b cost now hlt hl, ceil_div_eq _ _ hl]
    · rw [wait_time_snd, ← ceil_div_eq _ _ hl]
      exact charge_after_wait (b.points now).2 cost
        (le_trans (points_fst_le_last_points b now) hinv)
        hcap (points_remainder_lt b now) hlt hl hcost

theorem wait_time_to_afford_witness :
    (8 : Nat) ≤ 10 ∧ (10 : Nat) ≤ U16_MAX ∧
    ∃ w, ({ capacity := 10, leak_per_second := 4, last_points := 8,
            last_instant := 0, remainder_nanos := 0 : LeakyBucket }.wait_time_to_use
          10 0).1 = some w ∧
      ((({ capacity := 10, leak_per_second := 4, last_points := 8,
           last_instant := 0, remainder_nanos := 0 : LeakyBucket }.wait_time_to_use
            10 0).2.add 10 (0 + w)).1).isLeft = true := by
  refine ⟨by decide, by decide, ?_⟩
  have h := (wait_time_to_afford
    { capacity := 10, leak_per_second := 4, last_points := 8,
      last_instant := 0, remainder_nanos := 0 } 10 0 (by decide) (by decide)).2.2
    (by decide) (by decide) (by decide)
  exact ⟨_, h.1, h.2⟩

/-- The number of fields of `Entry` (`database.rs`, `FIELDS_LEN`). -/
def FIELDS_LEN : Nat := 26

/-- The default page size (`database.rs`, `DEFAULT_PAGE_SIZE`). -/
def DEFAULT_PAGE_SIZE : Nat := 10

/-- The default max bucket capacity (`database.rs`, `MAX_BUCKET_CAPACITY`). -/
def MAX_BUCKET_CAPACITY : Nat := 500

/-- The default leak-per-second (`database.rs`, `LEAK_PER_SECOND`). -/
def LEAK_PER_SECOND : Nat := 4

/-- The fallback backoff, in seconds, used by `request_next_page`
(`my_stream.rs`) when a 429 response arrives and no wait time can be derived
from the local budget estimate: `query_cost / LEAK_PER_SECOND + 1`. -/
def fallbackWaitSecs (query_cost : Nat) : Nat :=
  query_cost / LEAK_PER_SECOND + 1

/-- C7 counterexample: at `query_cost = 8` the fallback backoff is `3`
seconds while the ceiling of `8 / 4` is `2` seconds, so the fallback does
not equal `ceil(cost / leak_rate)`. -/
theorem fallback_not_ceiling :
    fallbackWaitSecs 8 = 3 ∧
    (8 + LEAK_PER_SECOND - 1) / LEAK_PER_SECOND = 2 := by
  decide

/-- C7 (amended): the fallback backoff is `floor(cost / leak_rate) + 1`
seconds, which equals the ceiling of `cost / leak_rate` when the leak rate
does not divide the cost, and one second more than the ceiling when it
does. -/
theorem fallback_wait_characterization (cost : Nat) :
    fallbackWaitSecs cost =
      (if cost % LEAK_PER_SECOND = 0 then cost / LEAK_PER_SECOND + 1
       else (cost + LEAK_PER_SECOND - 1) / LEAK_PER_SECOND) := by
  by_cases h : cost % LEAK_PER_SECOND = 0
  · rw [if_pos h]
    rfl
  · rw [if_neg h]
    unfold fallbackWaitSecs
    rw [← ceil_div_eq cost LEAK_PER_SECOND (by norm_num [LEAK_PER_SECOND]),
      if_pos h]

/-- The query shape consumed by the cost model (`database.rs`,
`ServerQuery`): the selected fields (a set without duplicates, whose 26
possible values are modelled as `Fin FIELDS_LEN`), the optional zero-based
page index and the optional page size. -/
structure ServerQuery where
  fields : Finset (Fin 26)
  page : Option Nat
  page_size : Option Nat
deriving DecidableEq

/-- `calc_query_cost` (`database.rs`): the fields cost is the number of
selected fields, or `FIELDS_LEN` when none are selected, clamped into `u16`
(`try_into().unwrap_or(u16::MAX)`); the result is the effective page size
multiplied by the fields cost with `u16` saturation. -/
def calc_query_cost (q : ServerQuery) : Nat :=
  let fields_cost :=
    min (if q.fields.card = 0 then FIELDS_LEN else q.fields.card) U16_MAX
  min ((q.page_size.getD DEFAULT_PAGE_SIZE) * fields_cost) U16_MAX

/-- C8: the cost model returns `effective_page_size * field_factor`
saturated at `u16::MAX`, where `field_factor` is the number of selected
fields (or the fixed total field count 26 when none are selected) and
`effective_page_size` is the requested page size (or the default 10 when
absent); in particular the result never exceeds `u16::MAX`. -/
theorem calc_query_cost_formula (q : ServerQuery) :
    calc_query_cost q =
      min ((q.page_size.getD DEFAULT_PAGE_SIZE) *
        (if q.fields.card = 0 then FIELDS_LEN else q.fields.card)) U16_MAX ∧
    calc_query_cost q ≤ U16_MAX := by
  have hcard : q.fields.card ≤ 26 :=
    le_trans (Finset.card_le_univ _) (by simp)
  have hF : (if q.fields.card = 0 then FIELDS_LEN else q.fields.card) ≤
      U16_MAX := by
    unfold FIELDS_LEN U16_MAX
    split <;> omega
  constructor
  · unfold calc_query_cost
    dsimp only
    rw [min_eq_left hF]
  · exact Nat.min_le_right _ _

/-- A mocked server response for one network call: a granted page carrying a
JSON array of records (each record abstracted to a number), or a 429
too-many-requests rejection. -/
inductive SResp where
  | granted (records : List Nat)
  | rejected
deriving DecidableEq, Repr

/-- The page-cursor update performed by `MyStreamProj::request_next_page`
(`my_stream.rs`) at the moment a request is created:
`self.query.page = Some(self.query.page.map(|page| page + 1).unwrap_or(1))`. -/
def advancePage (page : Option Nat) : Option Nat :=
  some ((page.map (· + 1)).getD 1)

/-- The network-call/yield loop of `MyStream` (`my_stream.rs`), driven by a
mocked server indexed by call number and requested page (`query.page` is
`None` for the first request, which the server reads as page `0`).  One
unit of fuel is consumed per network call; `none` means the fuel ran out.
The result is the list of yielded record batches and the trace of requested
page numbers, in order.

Correspondence with the source: each iteration issues the request for the
current cursor (`request_next_page` creates the request and then advances
`query.page` unconditionally, before the outcome is known).  On a granted
response, `request_next_page` (the free async function) classifies the
parsed array: empty means the stream is `Done` with no item; otherwise the
batch is yielded and `handle_request_result` continues with a further
request exactly when `has_another_page`, i.e. when the record count equals
`page_size`.  On a 429 the stream sleeps and `handle_request_result` calls
`request_next_page` again.  Sleeps (pre-flight self-throttle and
post-rejection backoff) and the local `LeakyBucket` estimate only delay
when the next call is issued, never which page it requests or what is
yielded, so they are elided; non-429 failure statuses and unparsable
bodies terminate the stream with an error and are outside the modelled
scenarios. -/
def runStream (server : Nat → Nat → SResp) (pageSize : Nat) :
    Nat → Nat → Option Nat → Option (List (List Nat) × List Nat)
  | 0, _, _ => none
  | fuel + 1, callIdx, page =>
    match server callIdx (page.getD 0) with
    | SResp.rejected =>
      match runStream server pageSize fuel (callIdx + 1) (advancePage page) with
      | none => none
      | some (bs, tr) => some (bs, page.getD 0 :: tr)
    | SResp.granted records =>
      if records.isEmpty then some ([], [page.getD 0])
      else if records.length = pageSize then
        match runStream server pageSize fuel (callIdx + 1) (advancePage page) with
        | none => none
        | some (bs, tr) => some (records :: bs, page.getD 0 :: tr)
      else some ([records], [page.getD 0])

theorem advancePage_eq (page : Option Nat) :
    advancePage page = some (page.getD 0 + 1) := by
  cases page <;> rfl

/-- A well-formed sequence of pages: every page except the last holds
exactly `pageSize` records and is nonempty, and the last page is nonempty
with strictly fewer than `pageSize` records. -/
def pagesOk (pageSize : Nat) : List (List Nat) → Bool
  | [] => false
  | [p] => !p.isEmpty && decide (p.length < pageSize)
  | p :: q :: rest => !p.isEmpty && (p.length == pageSize) && pagesOk pageSize (q :: rest)

theorem runStream_pagesOk (ps : List (List Nat)) (pageSize : Nat)
    (server : Nat → Nat → SResp) (idx : Nat) (page : Option Nat)
    (hs : ∀ i, i < ps.length →
      server (idx + i) (page.getD 0 + i) = SResp.granted (ps.getD i []))
    (hp : pagesOk pageSize ps = true) :
    runStream server pageSize ps.length idx page =
      some (ps, List.range' (page.getD 0) ps.length) := by
  induction ps generalizing idx page with
  | nil => simp [pagesOk] at hp
  | cons p rest ih =>
    have hserve : server idx (page.getD 0) = SResp.granted p := by
      have h0 := hs 0 (by simp)
      simpa using h0
    cases rest with
    | nil =>
      have h1 : p.isEmpty = false ∧ p.length < pageSize := by
        simpa [pagesOk, Bool.and_eq_true] using hp
      show runStream server pageSize 1 idx page =
        some ([p], List.range' (page.getD 0) 1)
      unfold runStream
      rw [hserve]
      dsimp only
      rw [if_neg (by simp [h1.1]), if_neg (by omega)]
      rfl
    | cons q rest2 =>
      have h1 : p.isEmpty = false ∧ p.length = pageSize ∧
          pagesOk pageSize (q :: rest2) = true := by
        have h2 := hp
        simp only [pagesOk, Bool.and_eq_true, Bool.not_eq_true',
          beq_iff_eq] at h2
        exact ⟨h2.1.1, h2.1.2, h2.2⟩
      have hs2 : ∀ i, i < (q :: rest2).length →
          server (idx + 1 + i) ((advancePage page).getD 0 + i) =
            SResp.granted ((q :: rest2).getD i []) := by
        intro i hi
        have h2 := hs (i + 1) (by simpa using Nat.succ_lt_succ hi)
        rw [advancePage_eq]
        simp only [Option.getD_some]
        have e1 : idx + (i + 1) = idx + 1 + i := by omega
        have e2 : page.getD 0 + (i + 1) = page.getD 0 + 1 + i := by omega
        rw [e1, e2] at h2
        simpa using h2
      have hrec := ih (idx + 1) (advancePage page) hs2 h1.2.2
      show runStream server pageSize ((q :: rest2).length + 1) idx page =
        some (p :: q :: rest2, List.range' (page.getD 0) ((q :: rest2).length + 1))
      unfold runStream
      rw [hserve]
      dsimp only
      rw [if_neg (by simp [h1.1]), if_pos h1.2.1, hrec]
      rw [advancePage_eq] at hrec ⊢
      simp only [Option.getD_some] at hrec ⊢
      rw [List.range'_succ]

/-- The dataset of the C3 scenario, as pages of size `2` (page `3` is
short): page `0` holds records `0, 1`, page `1` holds `2, 3`, page `2`
holds `4, 5` and page `3` holds only `6`. -/
def c3Data : List (List Nat) := [[0, 1], [2, 3], [4, 5], [6]]

/-- A mocked server for the C3 scenario: it rejects the third network call
(the first attempt at page `2`) with a 429 and grants every other call the
requested page of `c3Data`. -/
def c3Server : Nat → Nat → SResp := fun idx p =>
  if idx = 2 then SResp.rejected else SResp.granted (c3Data.getD p [])

/-- C3: the code violates the claim.  Against a server that rejects only
the first attempt at page `2` and would grant the retry, the stream issues
exactly one network call for page `2` — not two — because the page cursor
was already advanced when the rejected request was created, so the
post-backoff retry requests page `3` instead of page `2`.  The trace of
requested pages is `[0, 1, 2, 3]` and the records `[4, 5]` of page `2` are
missing from the yielded batches, breaking item ordering across pages. -/
theorem rejected_page_skipped :
    runStream c3Server 2 5 0 none =
      some ([[0, 1], [2, 3], [6]], [0, 1, 2, 3]) ∧
    List.count 2 [0, 1, 2, 3] = 1 ∧
    [4, 5] ∉ [[0, 1], [2, 3], [6]] := by
  decide

/-- C5 counterexample: a granted page holding 11 records at `page_size`
10 — a record count that is not strictly less than the page size — ends
the stream after a single fetch (the trace is `[0]`) instead of advancing
the cursor and fetching page `1` as the claim's `otherwise' branch
states. -/
theorem stream_overfull_page_counterexample :
    ¬ (11 : Nat) < 10 ∧
    runStream (fun _ _ => SResp.granted [0, 1, 2, 3, 4, 5, 6, 7, 8, 9, 10])
      10 3 0 none =
      some ([[0, 1, 2, 3, 4, 5, 6, 7, 8, 9, 10]], [0]) := by
  decide

/-- C5 (amended): the stream decides continuation structurally from each
successfully fetched page: an empty page ends the stream with no further
item; a page whose record count equals the requested `page_size` advances
the cursor and fetches the next page; any other nonempty count — in
particular any count strictly less than `page_size` — ends the stream
after its records are yielded.  Hence against a server granting pages
whose sizes satisfy `pagesOk` (all full but a short nonempty last page,
e.g. sizes `[10, 10, 3]` at page size `10`), the stream yields exactly
those pages in order over exactly one fetch per page and never issues a
further fetch. -/
theorem stream_structural_termination :
    (∀ (server : Nat → Nat → SResp) (pageSize fuel idx : Nat)
        (page : Option Nat),
      server idx (page.getD 0) = SResp.granted [] →
      runStream server pageSize (fuel + 1) idx page =
        some ([], [page.getD 0])) ∧
    (∀ (ps : List (List Nat)) (pageSize : Nat) (server : Nat → Nat → SResp),
      (∀ i, i < ps.length → server i i = SResp.granted (ps.getD i [])) →
      pagesOk pageSize ps = true →
      runStream server pageSize ps.length 0 none =
        some (ps, List.range ps.length)) := by
  constructor
  · intro server pageSize fuel idx page h
    unfold runStream
    rw [h]
    rfl
  · intro ps pageSize server hs hp
    have h := runStream_pagesOk ps pageSize server 0 none
      (fun i hi => by simpa using hs i hi) hp
    rw [List.range_eq_range']
    exact h

/-- The pages of the C5 scenario: sizes `[10, 10, 3]`, 23 records total. -/
def c5Pages : List (List Nat) :=
  [[0, 1, 2, 3, 4, 5, 6, 7, 8, 9],
   [10, 11, 12, 13, 14, 15, 16, 17, 18, 19],
   [20, 21, 22]]

theorem stream_structural_termination_witness :
    (∀ i, i < c5Pages.length →
      (fun (_ p : Nat) => SResp.granted (c5Pages.getD p [])) i i =
        SResp.granted (c5Pages.getD i [])) ∧
    pagesOk 10 c5Pages = true ∧
    runStream (fun _ p => SResp.granted (c5Pages.getD p [])) 10
        c5Pages.length 0 none =
      some (c5Pages, List.range c5Pages.length) ∧
    (c5Pages.map List.length).sum = 23 ∧
    runStream (fun _ _ => SResp.granted []) 10 1 0 none = some ([], [0]) :=
  ⟨by decide, by decide,
   stream_structural_termination.2 c5Pages 10 _ (by decide) (by decide),
   by decide,
   stream_structural_termination.1 (fun _ _ => SResp.granted []) 10 0 0 none
     rfl⟩

/-- The parse errors of `TryFrom<&HeaderMap> for LeakyBucket`
(`leaky_bucket.rs`, `FromHeaderError`). -/
inductive FromHeaderError where
  | noPoints
  | noCapacity
  | noLeakPerSecond
  | invalidPoints
  | invalidCapacity
  | invalidLeakPerSecond
deriving DecidableEq, Repr

/-- The budget snapshot attached to server responses (`bin/server/main.rs`,
`BucketInfo`). -/
structure BucketInfo where
  points : Nat
  capacity : Nat
  leak_per_second : Nat
deriving DecidableEq, Repr

/-- A numeric HTTP header value.  `HeaderValue::from(u16)` prints the number
in decimal; the decimal string is modelled by its little-endian digit
list. -/
def natHeaderValue (n : Nat) : List Nat := Nat.digits 10 n

/-- `BucketInfo::into_response_parts` (`bin/server/main.rs`): extends the
response headers with the three `x-bucket-*` headers carrying points,
capacity and leak-per-second as decimal integers. -/
def BucketInfo.intoHeaders (i : BucketInfo) : List (String × List Nat) :=
  [(BUCKET_POINTS_HEADER, natHeaderValue i.points),
   (BUCKET_CAPACITY_HEADER, natHeaderValue i.capacity),
   (BUCKET_LEAK_PER_SECOND_HEADER, natHeaderValue i.leak_per_second)]

/-- Parsing a header value as a bounded unsigned integer, modelling
`to_str().ok().and_then(parse().ok())` for `u16` (`bound = U16_MAX`) or
`u8` (`bound = U8_MAX`): every digit must be a decimal digit and the value
must fit the integer width, otherwise the parse fails. -/
def parseHeaderNat (ds : List Nat) (bound : Nat) : Option Nat :=
  if ds.all (fun d => decide (d < 10)) then
    if Nat.ofDigits 10 ds ≤ bound then some (Nat.ofDigits 10 ds) else none
  else none

/-- `TryFrom<&reqwest::header::HeaderMap> for LeakyBucket`
(`leaky_bucket.rs`): fetch the three bucket headers (missing headers are
reported first, in the order points, capacity, leak-per-second), then parse
them (points and capacity as `u16`, leak-per-second as `u8`), and build the
bucket with `with_points` observed at `now`.  The inner `Option` models the
`with_points` panic when the parsed points exceed the parsed capacity. -/
def tryFromHeaders (headers : List (String × List Nat)) (now : Nat) :
    Except FromHeaderError (Option LeakyBucket) :=
  match headers.lookup BUCKET_POINTS_HEADER with
  | none => Except.error FromHeaderError.noPoints
  | some pv =>
    match headers.lookup BUCKET_CAPACITY_HEADER with
    | none => Except.error FromHeaderError.noCapacity
    | some cv =>
      match headers.lookup BUCKET_LEAK_PER_SECOND_HEADER with
      | none => Except.error FromHeaderError.noLeakPerSecond
      | some lv =>
        match parseHeaderNat pv U16_MAX with
        | none => Except.error FromHeaderError.invalidPoints
        | some points =>
          match parseHeaderNat cv U16_MAX with
          | none => Except.error FromHeaderError.invalidCapacity
          | some capacity =>
            match parseHeaderNat lv U8_MAX with
            | none => Except.error FromHeaderError.invalidLeakPerSecond
            | some leak_per_second =>
              Except.ok (LeakyBucket.with_points points capacity
                leak_per_second now)

theorem parseHeaderNat_roundtrip (n bound : Nat) (hn : n ≤ bound) :
    parseHeaderNat (natHeaderValue n) bound = some n := by
  unfold parseHeaderNat natHeaderValue
  have hall : (Nat.digits 10 n).all (fun d => decide (d < 10)) = true := by
    rw [List.all_eq_true]
    intro d hd
    simpa using Nat.digits_lt_base (by norm_num) hd
  rw [if_pos hall, Nat.ofDigits_digits, if_pos hn]

/-- C9: budget-snapshot round-trip through the HTTP headers.  For every
`points ≤ capacity` fitting `u16` and leak rate fitting `u8`, writing the
three `x-bucket-*` headers from a `BucketInfo` and parsing that header map
back yields a bucket whose observed points at zero elapsed time, capacity
and leak-per-second equal the original three values. -/
theorem bucket_header_roundtrip (points capacity lps now : Nat)
    (hpc : points ≤ capacity) (hcap : capacity ≤ U16_MAX)
    (hlps : lps ≤ U8_MAX) :
    ∃ b, tryFromHeaders
        (BucketInfo.intoHeaders
          { points := points, capacity := capacity, leak_per_second := lps })
        now = Except.ok (some b) ∧
      (b.points now).1 = points ∧ b.capacity = capacity ∧
      b.leak_per_second = lps := by
  refine ⟨{ capacity := capacity, leak_per_second := lps,
            last_points := points, last_instant := now,
            remainder_nanos := 0 }, ?_, ?_, rfl, rfl⟩
  · have hl1 : (BucketInfo.intoHeaders
        { points := points, capacity := capacity,
          leak_per_second := lps }).lookup BUCKET_POINTS_HEADER =
        some (natHeaderValue points) := rfl
    have hl2 : (BucketInfo.intoHeaders
        { points := points, capacity := capacity,
          leak_per_second := lps }).lookup BUCKET_CAPACITY_HEADER =
        some (natHeaderValue capacity) := rfl
    have hl3 : (BucketInfo.intoHeaders
        { points := points, capacity := capacity,
          leak_per_second := lps }).lookup BUCKET_LEAK_PER_SECOND_HEADER =
        some (natHeaderValue lps) := rfl
    unfold tryFromHeaders
    rw [hl1, hl2, hl3]
    dsimp only
    rw [parseHeaderNat_roundtrip points U16_MAX (le_trans hpc hcap),
      parseHeaderNat_roundtrip capacity U16_MAX hcap,
      parseHeaderNat_roundtrip lps U8_MAX hlps]
    dsimp only
    unfold LeakyBucket.with_points
    rw [if_pos hpc]
  · exact points_at_fresh_instant _ now rfl (by norm_num [NANOS_PER_SEC])

theorem bucket_header_roundtrip_witness :
    (3 : Nat) ≤ 10 ∧ (10 : Nat) ≤ U16_MAX ∧ (4 : Nat) ≤ U8_MAX ∧
    ∃ b, tryFromHeaders
        (BucketInfo.intoHeaders
          { points := 3, capacity := 10, leak_per_second := 4 }) 0 =
        Except.ok (some b) ∧
      (b.points 0).1 = 3 ∧ b.capacity = 10 ∧ b.leak_per_second = 4 :=
  ⟨by decide, by decide, by decide,
   bucket_header_roundtrip 3 10 4 0 (by decide) (by decide) (by decide)⟩

/-- Fuel-driven worker for `chunks`. -/
def chunksGo {α : Type} (n : Nat) : Nat → List α → List (List α)
  | 0, _ => []
  | _, [] => []
  | fuel + 1, l => l.take n :: chunksGo n fuel (l.drop n)

/-- `slice::chunks(n)` as used by the server handler: splits the database
into consecutive chunks of `n` records, the last chunk possibly shorter.
The fuel `l.length` suffices for every `n ≥ 1`; `chunks(0)` panics in Rust
and is excluded by hypothesis wherever this model is used. -/
def chunks {α : Type} (n : Nat) (l : List α) : List (List α) :=
  chunksGo n l.length l

/-- The admission failure of the server (`bin/server/error.rs`,
`Error::NotEnoughCapacity`), carrying the request cost, the points at
rejection, the capacity and the leak rate. -/
inductive ServerError where
  | notEnoughCapacity (request points capacity leak_per_second : Nat)
deriving DecidableEq, Repr

/-- The `Message::Query` branch of the server's `handler`
(`bin/server/main.rs`): compute the cost from the query, `charge` the
bucket; on rejection reply 429 with the admission failure; on grant select
the requested page as `database.chunks(page_size).nth(page)`, convert each
record through the field projection (`PartialEntry`, abstracted as `proj`),
defaulting to the empty page when `nth` is out of range, and reply 200 with
the page and the post-charge bucket snapshot.  The optional random noise
`saturating_add` of the handler loop happens before this branch and is
covered by quantifying over the incoming bucket state. -/
def handleQuery {α β : Type} (db : List α) (proj : Finset (Fin 26) → α → β)
    (b : LeakyBucket) (q : ServerQuery) (now : Nat) :
    Except ServerError (BucketInfo × List β) × LeakyBucket :=
  let cost := calc_query_cost q
  let capacity := b.capacity
  let leak_per_second := b.leak_per_second
  match b.add cost now with
  | (Sum.inl pts, b1) =>
    let entries := (((chunks (q.page_size.getD DEFAULT_PAGE_SIZE) db).get?
        (q.page.getD 0)).getD []).map (proj q.fields)
    (Except.ok ({ points := pts, capacity := capacity,
                  leak_per_second := leak_per_second }, entries), b1)
  | (Sum.inr pts, b1) =>
    (Except.error (ServerError.notEnoughCapacity cost pts capacity
        leak_per_second), b1)

/-- C10: an admitted query whose page index lies past the last page of the
dataset is answered with success (status 200) and an empty record list
rather than an error, and the budget is still charged the full query cost
computed from `page_size` and `fields` — the charge is independent of how
many records the page actually contains. -/
theorem past_last_page_empty_and_charged {α β : Type} (db : List α)
    (proj : Finset (Fin 26) → α → β) (b : LeakyBucket) (q : ServerQuery)
    (now : Nat)
    (_hps : 0 < q.page_size.getD DEFAULT_PAGE_SIZE)
    (hpage : (chunks (q.page_size.getD DEFAULT_PAGE_SIZE) db).length ≤
      q.page.getD 0)
    (hadm : min ((b.points now).1 + calc_query_cost q) U16_MAX ≤ b.capacity) :
    (handleQuery db proj b q now).1 =
      Except.ok
        ({ points := min ((b.points now).1 + calc_query_cost q) U16_MAX,
           capacity := b.capacity, leak_per_second := b.leak_per_second },
         ([] : List β)) ∧
    (handleQuery db proj b q now).2.last_points =
      min ((b.points now).1 + calc_query_cost q) U16_MAX := by
  have hget : (chunks (q.page_size.getD DEFAULT_PAGE_SIZE) db).get?
      (q.page.getD 0) = none :=
    List.get?_eq_none.mpr hpage
  have hadd : b.add (calc_query_cost q) now =
      (Sum.inl (min ((b.points now).1 + calc_query_cost q) U16_MAX),
       { capacity := b.capacity, leak_per_second := b.leak_per_second,
         last_points := min ((b.points now).1 + calc_query_cost q) U16_MAX,
         last_instant := now,
         remainder_nanos := (b.points now).2.remainder_nanos }) := by
    unfold LeakyBucket.add
    dsimp only
    rw [if_pos hadm]
    rfl
  unfold handleQuery
  dsimp only
  rw [hadd, hget]
  exact ⟨rfl, rfl⟩

theorem past_last_page_empty_and_charged_witness :
    0 < (Option.none : Option Nat).getD DEFAULT_PAGE_SIZE ∧
    (chunks ((Option.none : Option Nat).getD DEFAULT_PAGE_SIZE)
      [1, 2, 3]).length ≤ 5 ∧
    min (({ capacity := 500, leak_per_second := 4, last_points := 0,
            last_instant := 0, remainder_nanos := 0 : LeakyBucket }.points 0).1 +
        calc_query_cost { fields := ∅, page := some 5, page_size := none })
      U16_MAX ≤ 500 ∧
    (handleQuery [1, 2, 3] (fun _ a => a)
        { capacity := 500, leak_per_second := 4, last_points := 0,
          last_instant := 0, remainder_nanos := 0 }
        { fields := ∅, page := some 5, page_size := none } 0).1 =
      Except.ok
        ({ points := 260, capacity := 500, leak_per_second := 4 },
         ([] : List Nat)) ∧
    (handleQuery [1, 2, 3] (fun _ a => a)
        { capacity := 500, leak_per_second := 4, last_points := 0,
          last_instant := 0, remainder_nanos := 0 }
        { fields := ∅, page := some 5, page_size := none } 0).2.last_points =
      260 := by
  refine ⟨by decide, by decide, by decide, ?_, ?_⟩
  · have h := (past_last_page_empty_and_charged [1, 2, 3] (fun _ a => a)
      { capacity := 500, leak_per_second := 4, last_points := 0,
        last_instant := 0, remainder_nanos := 0 }
      { fields := ∅, page := some 5, page_size := none } 0
      (by decide) (by decide) (by decide)).1
    simpa using h
  · have h := (past_last_page_empty_and_charged [1, 2, 3] (fun _ a => a)
      { capacity := 500, leak_per_second := 4, last_points := 0,
        last_instant := 0, remainder_nanos := 0 }
      { fields := ∅, page := some 5, page_size := none } 0
      (by decide) (by decide) (by decide)).2
    simpa using h
